import Mathlib

/-!
Verification of the query-execution core of a reflection-based GraphQL
library (source file `resolve.go`).  The executor walks a parsed query
document against a reflected schema (`Obj` / `Input` graphs), coerces
argument literals into typed inputs, invokes methods, and serialises the
result to JSON while accumulating an error list on the execution context.

The embedding below translates `resolve.go` definition by definition:

* Go `reflect.Value`s become the inductive `GoValue`; machine integers are
  `Int`/`Nat` with explicit truncation modulo `2^w` where a `reflect`
  setter would convert.
* the mutually recursive resolver functions take an explicit `fuel`
  parameter (the Go code can genuinely diverge on cyclic fragment
  spreads); `none` means "fuel exhausted", every `some` result is exactly
  what the Go code produces.
* the execution context `Ctx` is threaded explicitly; its `errors` list
  models the accumulated error messages.  A ghost field `calls` records
  every `value.Call(inputs)` the executor performs, so that "the method
  was (not) invoked" is observable in theorems.
* host-language function values cannot occur inside a Lean inductive, so
  a Go `func` value is modelled by its list of return values (`vFunc`);
  the inputs handed to `Call` are recorded in the `calls` trace.
-/

namespace GoGraphql

/-- The Go integer kinds handled by the library (`reflect.Int` … `reflect.Uintptr`). -/
inductive IntKind where
  | i | i8 | i16 | i32 | i64
  | u | u8 | u16 | u32 | u64 | uptr
deriving DecidableEq

/-- Bit width of an integer kind (Go `int`, `uint` and `uintptr` are 64-bit here). -/
def IntKind.width : IntKind → Nat
  | .i => 64 | .i8 => 8 | .i16 => 16 | .i32 => 32 | .i64 => 64
  | .u => 64 | .u8 => 8 | .u16 => 16 | .u32 => 32 | .u64 => 64 | .uptr => 64

/-- Whether the kind is one of the signed `Int*` kinds. -/
def IntKind.isSigned : IntKind → Bool
  | .i | .i8 | .i16 | .i32 | .i64 => true
  | _ => false

/-- Truncate an integer to a signed two's-complement width `w`. -/
def truncSigned (w : Nat) (v : Int) : Int :=
  (v + 2 ^ (w - 1)) % 2 ^ w - 2 ^ (w - 1)

/-- Truncate an integer to an unsigned width `w` (Go conversion to `uintN`). -/
def truncUnsigned (w : Nat) (v : Int) : Int :=
  v % 2 ^ w

/-- Abstract payload of a Go floating-point value.  No claim in this
development concerns float semantics; the payload is carried around
uninterpreted. -/
structure GoFloat where
  val : Int
deriving DecidableEq

/-- Modelled from the spec: `floatToJson` lives outside `resolve.go` (the
only source file of the executor given here); section 6 of the spec says
floats are emitted with enough decimal digits to round-trip and that NaN
and infinities serialise as `null`.  No claim depends on its output, so the
rendering is left symbolic over the abstract payload. -/
def floatToJson (bits : Nat) (v : GoFloat) : String :=
  "float" ++ toString bits ++ ":" ++ toString v.val

/-- A Go scalar value: the leaf kinds `valueToJson` serialises directly. -/
inductive ScalarVal where
  | sString (v : String)
  | sBool (v : Bool)
  | sInt (k : IntKind) (v : Int)
  | sFloat32 (f : GoFloat)
  | sFloat64 (f : GoFloat)
deriving DecidableEq

/-- Static element type of a Go pointer, as far as `valueToJson`'s type
switch distinguishes them: the fifteen `*string`, `*bool`, `*int…`,
`*float…` cases each have their own case; every other pointer type falls
through to the `default` branch. -/
inductive PtrElemTy where
  | pString | pBool
  | pInt (k : IntKind)
  | pFloat32 | pFloat64
  | pOther
deriving DecidableEq

/-- The error-interface value a method's designated error output can hold:
either it does not implement `error` (the type assertion in the source
fails), or it is an `error` with a message.  A Go non-nil interface that
asserts to `error` always compares non-nil (even when it wraps a typed nil
pointer), so the source's `err != nil` check is true exactly on `isError`. -/
structure ErrIface where
  isError : Bool
  msg : String
deriving DecidableEq

/-- A Go runtime value as seen through `reflect.Value`.

* `vPtr ty v` — a pointer with static element type `ty`; `none` is a typed
  nil pointer.
* `vSlice isNil elems` — a slice (`isNil` true for the nil slice).  Fixed
  length Go arrays are not modelled: the library rejects them on the input
  side (`fixed length arrays not supported`) and on the output side the
  source would call `IsNil` on an array value, which panics in `reflect`.
* `vStruct fields methods` — a struct: fields and methods by Go name.
* `vFunc outs` — a func value, `none` when nil; a non-nil func is modelled
  by its (constant) list of return values, and the inputs passed at the
  call site are recorded in the context's `calls` trace.
* `vErr e` — a value of interface type `error` (a method's error output).
* `vCtx` — the `reflect.ValueOf(ctx)` the executor injects for context
  parameters.
* `vInvalid` — the zero `reflect.Value`. -/
inductive GoValue where
  | vScalar (s : ScalarVal)
  | vPtr (ty : PtrElemTy) (v : Option GoValue)
  | vSlice (isNil : Bool) (elems : List GoValue)
  | vStruct (fields : List (String × GoValue)) (methods : List (String × GoValue))
  | vFunc (outs : Option (List GoValue))
  | vErr (e : Option ErrIface)
  | vCtx
  | vInvalid

/-- Go `fmt %q` quoting of a single character: `"` and `\` are escaped,
the named escapes `\a \b \f \n \r \t \v` are used for their control
characters, remaining control characters become `\xHH`; printable
characters are kept.  (Go would additionally `\u`-escape non-printable
characters above 0x7f; such characters do not occur in any claim.) -/
def goQuoteChar (c : Char) : String :=
  if c = '"' then "\\\""
  else if c = '\\' then "\\\\"
  else if c = Char.ofNat 7 then "\\a"
  else if c = Char.ofNat 8 then "\\b"
  else if c = Char.ofNat 12 then "\\f"
  else if c = '\n' then "\\n"
  else if c = Char.ofNat 13 then "\\r"
  else if c = '\t' then "\\t"
  else if c = Char.ofNat 11 then "\\v"
  else if c.toNat < 32 ∨ c.toNat = 127 then
    "\\x" ++ String.mk [Nat.digitChar (c.toNat / 16), Nat.digitChar (c.toNat % 16)]
  else String.singleton c

/-- Go `fmt.Sprintf("%q", s)`: a double-quoted, escaped string literal. -/
def goQuote (s : String) : String :=
  "\"" ++ String.join (s.toList.map goQuoteChar) ++ "\""

/-- `valueToJson` from the source: the type switch over the leaf scalar
kinds, the fifteen pointer-to-scalar kinds (nil pointer becomes `null`,
non-nil is dereferenced and re-serialised), and a `default` branch that
returns `null` together with the error `invalid data type`.  The second
component models the Go `error` return (`none` = nil error). -/
def valueToJson : GoValue → String × Option String
  | .vScalar (.sString v) => (goQuote v, none)
  | .vScalar (.sBool v) => (if v then "true" else "false", none)
  | .vScalar (.sInt _ v) => (toString v, none)
  | .vScalar (.sFloat32 f) => (floatToJson 32 f, none)
  | .vScalar (.sFloat64 f) => (floatToJson 64 f, none)
  | .vPtr ty none =>
    -- nil `*string` … `*float64` serialise as null; a nil pointer of any
    -- other type falls to the default branch like its non-nil counterpart
    if ty = .pOther then ("null", some "invalid data type") else ("null", none)
  | .vPtr ty (some inner) =>
    if ty = .pOther then ("null", some "invalid data type") else valueToJson inner
  | _ => ("null", some "invalid data type")

/-- `GenerateResponse` from the source: frames the data JSON and the
accumulated errors.  Note the source appends `"errors":[…]` directly after
the data with no separating comma. -/
def GenerateResponse (data : String) (errors : List String) : String :=
  let res := "\x7b\"data\":" ++ data
  let res :=
    if errors.length > 0 then
      res ++ "\"errors\":[" ++
        String.intercalate "," (errors.map (fun e => "\x7b\"message\":" ++ goQuote e ++ "\x7d")) ++
        "]"
    else res
  res ++ "\x7d"

/-- A parsed GraphQL argument value (the source's `Value` struct carries a
`reflect.Kind` tag plus `isVar`/`isNull`/`isEnum` flags; the parser only
ever produces the nine variants below, modelled as a tagged variant per
the spec's data model). -/
inductive Value where
  | vVar (name : String)
  | vNull
  | vEnum (enumValue : String)
  | vInt (intValue : Int)
  | vFloat (floatValue : GoFloat)
  | vString (stringValue : String)
  | vBool (booleanValue : Bool)
  | vList (listValue : List Value)
  | vObject (objectValue : List (String × Value))

/-- A parsed directive (parsed but never consulted by the executor). -/
structure Directive where
  name : String
deriving DecidableEq

/- Parsed fields and selections (mutually recursive, as in the source's
AST: a `Field` carries its own nested selection set).  `alias` is a Lean
keyword, so the field is named `alias_` here. -/
mutual
inductive Field where
  | mk (name : String) (alias_ : String) (arguments : List (String × Value))
       (directives : List Directive) (selection : List Selection)

inductive Selection where
  | field (f : Field)
  | fragmentSpread (name : String)
  | inlineFragment (onType : String) (selection : List Selection)
end

/-- A selection set is a list of selections. -/
def SelectionSet := List Selection

def Field.name : Field → String | .mk n _ _ _ _ => n
def Field.alias_ : Field → String | .mk _ a _ _ _ => a
def Field.arguments : Field → List (String × Value) | .mk _ _ a _ _ => a
def Field.selection : Field → List Selection | .mk _ _ _ _ s => s

/-- A parsed fragment definition. -/
structure Fragment where
  name : String
  onType : String
  selection : List Selection

/-- A parsed operator.  The source stores fragments in the same struct
behind a `fragment` member, mirrored here. -/
structure Operator where
  name : String
  operationType : String
  selection : List Selection
  directives : List Directive
  fragment : Fragment

/-- The `reflect.Kind` enumeration (used for the input-coercion kind
table and the mismatch-error wording). -/
inductive RKind where
  | Invalid | Bool | Int | Int8 | Int16 | Int32 | Int64
  | Uint | Uint8 | Uint16 | Uint32 | Uint64 | Uintptr
  | Float32 | Float64 | Complex64 | Complex128
  | Array | Chan | Func | Interface | Map | Ptr | Slice
  | String | Struct | UnsafePointer
deriving DecidableEq

/-- The reflected description of one input (argument) type, mirroring the
source's `Input` struct: a kind, an optional element type (pointer/slice),
enum data, deferred-struct data, the struct content map, and the Go field
name used for assignment. -/
inductive Input where
  | mk (kind : RKind) (elem : Option Input) (isEnum : Bool) (enumKey : String)
       (isStructPointers : Bool) (structName : String)
       (structContent : List (String × Input)) (goFieldName : String)

def Input.kind : Input → RKind | .mk k _ _ _ _ _ _ _ => k
def Input.elem : Input → Option Input | .mk _ e _ _ _ _ _ _ => e
def Input.isEnum : Input → Bool | .mk _ _ b _ _ _ _ _ => b
def Input.enumKey : Input → String | .mk _ _ _ k _ _ _ _ => k
def Input.isStructPointers : Input → Bool | .mk _ _ _ _ b _ _ _ => b
def Input.structName : Input → String | .mk _ _ _ _ _ n _ _ => n
def Input.structContent : Input → List (String × Input) | .mk _ _ _ _ _ _ c _ => c
def Input.goFieldName : Input → String | .mk _ _ _ _ _ _ _ n => n

/-- The zero `Input` (what a Go map read returns on a missing key). -/
def defaultInput : Input := .mk .Invalid none false "" false "" [] ""

/-- The `valueType` tags of the source (`valueTypeMethod` … plus an
`undefined` tag for any other integer value, which the executor's
`default` branch reports as an invalid data type). -/
inductive VT where
  | method | array | obj | objRef | data | ptr | enum | undefined
deriving DecidableEq

/- Reflected output types and method metadata, mirroring the source's
`obj` struct and its method description:

* `objContents` — field map of an object type;
* `innerContent` — element type of an array/pointer (a Go pointer, hence
  `Option`);
* `method` — metadata of a method-backed field (a Go pointer, always
  populated by the reflector for `valueType = method`);
* `structFieldName` — the Go field/method name to fetch from the struct;
* `customObjValue` — an optional pre-computed value overriding the struct
  lookup.

`MethodMeta` holds: whether the method is a type method (fetched via
`MethodByName`), the ordered parameter groups (`ins`, each either the
context marker or a zero value of the parameter record type,
`reflect.New(*in.type_).Elem()`), the map from argument name to
`(parameter index, Input)`, the designated error output index, the value
output index, and the reflected output type. -/
mutual
inductive Obj where
  | mk (typeName : String) (valueType : VT) (objContents : List (String × Obj))
       (innerContent : Option Obj) (method : Option MethodMeta) (enumKey : String)
       (structFieldName : String) (customObjValue : Option GoValue)

inductive MethodMeta where
  | mk (isTypeMethod : Bool) (ins : List MethodIn)
       (inFields : List (String × FieldIn))
       (errorOutNr : Option Nat) (outNr : Nat) (outType : Obj)

inductive MethodIn where
  | mk (isCtx : Bool) (zero : GoValue)

inductive FieldIn where
  | mk (inputIdx : Nat) (input : Input)
end

def Obj.typeName : Obj → String | .mk n _ _ _ _ _ _ _ => n
def Obj.valueType : Obj → VT | .mk _ v _ _ _ _ _ _ => v
def Obj.objContents : Obj → List (String × Obj) | .mk _ _ c _ _ _ _ _ => c
def Obj.innerContent : Obj → Option Obj | .mk _ _ _ i _ _ _ _ => i
def Obj.method : Obj → Option MethodMeta | .mk _ _ _ _ m _ _ _ => m
def Obj.enumKey : Obj → String | .mk _ _ _ _ _ k _ _ => k
def Obj.structFieldName : Obj → String | .mk _ _ _ _ _ _ n _ => n
def Obj.customObjValue : Obj → Option GoValue | .mk _ _ _ _ _ _ _ v => v

def MethodMeta.isTypeMethod : MethodMeta → Bool | .mk b _ _ _ _ _ => b
def MethodMeta.ins : MethodMeta → List MethodIn | .mk _ i _ _ _ _ => i
def MethodMeta.inFields : MethodMeta → List (String × FieldIn) | .mk _ _ f _ _ _ => f
def MethodMeta.errorOutNr : MethodMeta → Option Nat | .mk _ _ _ e _ _ => e
def MethodMeta.outNr : MethodMeta → Nat | .mk _ _ _ _ n _ => n
def MethodMeta.outType : MethodMeta → Obj | .mk _ _ _ _ _ t => t

def MethodIn.isCtx : MethodIn → Bool | .mk b _ => b
def MethodIn.zero : MethodIn → GoValue | .mk _ z => z

def FieldIn.inputIdx : FieldIn → Nat | .mk i _ => i
def FieldIn.input : FieldIn → Input | .mk _ i => i

/-- The `undefined`-tagged empty object (used below where the Go code
would dereference a nil `*obj`: the executor's `default` branch then
reports an invalid data type, which is where a nil dereference would
surface as a crash in the source; those states are unreachable on
reflector-built schemas). -/
def defaultObj : Obj := .mk "" .undefined [] none none "" "" none

/-- A placeholder method description (nil `*method` dereference point). -/
def defaultMethodMeta : MethodMeta := .mk false [] [] none 0 defaultObj

/-- A registered enum: the two parallel maps of the process-wide registry
(`keyValue`: enum name to representation value, `valueKey`: representation
value to name).  Representations are scalars (strings or integers). -/
structure GqlEnum where
  keyValue : List (String × ScalarVal)
  valueKey : List (ScalarVal × String)

/-- The zero enum (missing registry entry). -/
def defaultGqlEnum : GqlEnum := ⟨[], []⟩

/-- The reflected schema.  `definedEnums` is a process-wide global in the
source; it is carried on the schema here (the executor only reads it).
`MaxDepth` is a Go `uint8`; its value is below 256 on every schema the
library builds. -/
structure Schema where
  rootQuery : Obj
  rootMethod : Obj
  rootQueryValue : GoValue
  types : List (String × Obj)
  inTypes : List (String × Input)
  MaxDepth : Nat
  definedEnums : List (String × GqlEnum)

/-- The execution context (`Ctx`), threaded explicitly.  `calls` is a
ghost trace of every `value.Call(inputs)` performed, added by the model so
that method invocation is observable; the source has no such field. -/
structure Ctx where
  fragments : List (String × Operator)
  schema : Schema
  Values : List (String × GoValue)
  directvies : List (List Directive)
  errors : List String
  calls : List (List GoValue)

/-- `ctx.addErr` / `ctx.addErrf`: append one error message. -/
def Ctx.addErr (c : Ctx) (e : String) : Ctx :=
  { c with errors := c.errors ++ [e] }

/-- The `reflect.Kind` of an integer kind. -/
def IntKind.rkind : IntKind → RKind
  | .i => .Int | .i8 => .Int8 | .i16 => .Int16 | .i32 => .Int32 | .i64 => .Int64
  | .u => .Uint | .u8 => .Uint8 | .u16 => .Uint16 | .u32 => .Uint32 | .u64 => .Uint64
  | .uptr => .Uintptr

/-- The `reflect.Kind` of a runtime value. -/
def GoValue.rkind : GoValue → RKind
  | .vScalar (.sString _) => .String
  | .vScalar (.sBool _) => .Bool
  | .vScalar (.sInt k _) => k.rkind
  | .vScalar (.sFloat32 _) => .Float32
  | .vScalar (.sFloat64 _) => .Float64
  | .vPtr _ _ => .Ptr
  | .vSlice _ _ => .Slice
  | .vStruct _ _ => .Struct
  | .vFunc _ => .Func
  | .vErr _ => .Interface
  | .vCtx => .Ptr
  | .vInvalid => .Invalid

/-- The kind of a value's type with pointers stripped (`for t.Kind() ==
reflect.Ptr { t = t.Elem() }` in the mismatch-error helper).  The source
strips the static type, which also works for a nil pointer; the model
strips through the value and leaves a nil pointer at `Ptr` (by the time
the mismatch error fires the executor has already peeled every pointer
level, so the difference is unreachable on mirrored inputs). -/
def GoValue.stripPtrKind : GoValue → RKind
  | .vPtr _ (some inner) => inner.stripPtrKind
  | v => v.rkind

/-- The wording table `m` of the source's `mismatchError` closure. -/
def mismatchWord : RKind → String
  | .Invalid => "an unknown type"
  | .Bool => "a boolean"
  | .Int => "a number" | .Int8 => "a number" | .Int16 => "a number"
  | .Int32 => "a number" | .Int64 => "a number"
  | .Uint => "a number" | .Uint8 => "a number" | .Uint16 => "a number"
  | .Uint32 => "a number" | .Uint64 => "a number" | .Uintptr => "a number"
  | .Float32 => "a float" | .Float64 => "a float"
  | .Complex64 => "a number" | .Complex128 => "a number"
  | .Array => "an array" | .Chan => "an unknown type" | .Func => "an unknown type"
  | .Interface => "an unknown type" | .Map => "an unknown type"
  | .Ptr => "optional type" | .Slice => "an array"
  | .String => "a string" | .Struct => "a object"
  | .UnsafePointer => "a number"

/- Models of the `reflect.Value` setters used by the coercion code.
Each Go setter panics when the target's kind does not match; under the
library's invariant that the `Input` graph mirrors the Go types that
cannot happen, and the model leaves the value unchanged there.  `SetInt`
and `SetUint` convert (truncate) the supplied 64-bit value to the target
width, modelled by explicit reduction modulo `2^w`. -/

def GoValue.setString (v : GoValue) (s : String) : GoValue :=
  match v with
  | .vScalar (.sString _) => .vScalar (.sString s)
  | _ => v

def GoValue.setBool (v : GoValue) (b : Bool) : GoValue :=
  match v with
  | .vScalar (.sBool _) => .vScalar (.sBool b)
  | _ => v

def GoValue.setInt (v : GoValue) (x : Int) : GoValue :=
  match v with
  | .vScalar (.sInt k old) =>
    if k.isSigned then .vScalar (.sInt k (truncSigned k.width x))
    else .vScalar (.sInt k old)
  | _ => v

def GoValue.setUint (v : GoValue) (x : Int) : GoValue :=
  match v with
  | .vScalar (.sInt k old) =>
    if k.isSigned then .vScalar (.sInt k old)
    else .vScalar (.sInt k (truncUnsigned k.width x))
  | _ => v

def GoValue.setFloat (v : GoValue) (f : GoFloat) : GoValue :=
  match v with
  | .vScalar (.sFloat32 _) => .vScalar (.sFloat32 f)
  | .vScalar (.sFloat64 _) => .vScalar (.sFloat64 f)
  | _ => v

/-- `goField.Set(newVal)` where `newVal` is a freshly allocated pointer to
`inner` (the pointer branch of the coercion). -/
def GoValue.setPtr (v : GoValue) (inner : GoValue) : GoValue :=
  match v with
  | .vPtr ty _ => .vPtr ty (some inner)
  | _ => v

/-- `goField.Set(arr)` for a freshly built slice. -/
def GoValue.setSlice (v : GoValue) (elems : List GoValue) : GoValue :=
  match v with
  | .vSlice _ _ => .vSlice false elems
  | _ => v

/-- Update (or materialise) one entry of an association list. -/
def setAssoc (l : List (String × GoValue)) (k : String) (nv : GoValue) :
    List (String × GoValue) :=
  match l with
  | [] => [(k, nv)]
  | (k0, v0) :: rest => if k0 = k then (k, nv) :: rest else (k0, v0) :: setAssoc rest k nv

/-- `reflect.Value.FieldByName`.  Structs are modelled extensionally by
their assigned fields; the `dflt` argument supplies the zero value of the
mirrored input type for a field that has not been materialised yet (in Go
the zero-initialised field is physically present from the start). -/
def GoValue.fieldByName (v : GoValue) (name : String) (dflt : GoValue) : GoValue :=
  match v with
  | .vStruct fields _ => (List.lookup name fields).getD dflt
  | _ => dflt

/-- `reflect.Value.MethodByName` (missing method: the zero `reflect.Value`). -/
def GoValue.methodByName (v : GoValue) (name : String) : GoValue :=
  match v with
  | .vStruct _ methods => (List.lookup name methods).getD .vInvalid
  | _ => .vInvalid

/-- Write a struct field (the effect of a `reflect` setter reached through
`FieldByName`). -/
def GoValue.setField (v : GoValue) (name : String) (nv : GoValue) : GoValue :=
  match v with
  | .vStruct fields methods => .vStruct (setAssoc fields name nv) methods
  | _ => v

/-- The pointer element tag of a reflected element type. -/
def ptrTyOfKind (k : RKind) : PtrElemTy :=
  match k with
  | .String => .pString
  | .Bool => .pBool
  | .Int => .pInt .i | .Int8 => .pInt .i8 | .Int16 => .pInt .i16
  | .Int32 => .pInt .i32 | .Int64 => .pInt .i64
  | .Uint => .pInt .u | .Uint8 => .pInt .u8 | .Uint16 => .pInt .u16
  | .Uint32 => .pInt .u32 | .Uint64 => .pInt .u64 | .Uintptr => .pInt .uptr
  | .Float32 => .pFloat32
  | .Float64 => .pFloat64
  | _ => .pOther

/- The zero Go value of a reflected input type (`reflect.New(t).Elem()`).
The source reads the type from the Go field; the `Input` graph mirrors it
(spec section 4.2), so the model computes the zero from the `Input`. -/
mutual
def zeroOfInput : Input → GoValue
  | .mk k elem _ _ _ _ scont _ =>
    match k with
    | .Bool => .vScalar (.sBool false)
    | .Int => .vScalar (.sInt .i 0) | .Int8 => .vScalar (.sInt .i8 0)
    | .Int16 => .vScalar (.sInt .i16 0) | .Int32 => .vScalar (.sInt .i32 0)
    | .Int64 => .vScalar (.sInt .i64 0)
    | .Uint => .vScalar (.sInt .u 0) | .Uint8 => .vScalar (.sInt .u8 0)
    | .Uint16 => .vScalar (.sInt .u16 0) | .Uint32 => .vScalar (.sInt .u32 0)
    | .Uint64 => .vScalar (.sInt .u64 0) | .Uintptr => .vScalar (.sInt .uptr 0)
    | .Float32 => .vScalar (.sFloat32 ⟨0⟩)
    | .Float64 => .vScalar (.sFloat64 ⟨0⟩)
    | .String => .vScalar (.sString "")
    | .Ptr => .vPtr (match elem with | some e => ptrTyOfKind e.kind | none => .pOther) none
    | .Slice => .vSlice true []
    | .Struct => .vStruct (zeroOfInputs scont) []
    | _ => .vInvalid

def zeroOfInputs : List (String × Input) → List (String × GoValue)
  | [] => []
  | (_, i) :: rest => (i.goFieldName, zeroOfInput i) :: zeroOfInputs rest
end

/- `matchInputValue` and the two iteration helpers its `for` loops become
(`matchList` over a list literal's items, `matchObject` over an object
literal's entries).  The result is `none` on fuel exhaustion, otherwise
exactly the source's behaviour: `Except.error` is the returned coercion
error, `Except.ok` carries the updated target value (the source mutates
`goField` in place). -/
mutual
def matchInputValue (fuel : Nat) (sch : Schema) (queryValue : Value)
    (goField : GoValue) (goAnylizedData : Input) : Option (Except String GoValue) :=
  match fuel with
  | 0 => none
  | fuel + 1 =>
    let goFieldKind := goAnylizedData.kind
    if goFieldKind = RKind.Ptr then
      match queryValue with
      | .vNull => some (.ok goField)
      | _ =>
        -- expectedType := goField.Type().Elem(); newValInner is its zero
        let expectedType := goAnylizedData.elem.getD defaultInput
        match matchInputValue fuel sch queryValue (zeroOfInput expectedType) expectedType with
        | none => none
        | some (.error e) => some (.error e)
        | some (.ok inner) => some (.ok (goField.setPtr inner))
    else
      let mismatchError : Except String GoValue :=
        .error ("function arguments type missmatch expected " ++
          mismatchWord goField.stripPtrKind)
      match queryValue with
      | .vVar _ => some (.error "variable function arguments are currently unsupported")
      | .vNull => some (.ok goField)
      | .vEnum enumValue =>
        if !goAnylizedData.isEnum then some mismatchError
        else
          let enum := (List.lookup goAnylizedData.enumKey sch.definedEnums).getD defaultGqlEnum
          match List.lookup enumValue enum.keyValue with
          | none =>
            some (.error ("unknown enum value " ++ enumValue ++ " for enum " ++
              goAnylizedData.enumKey))
          | some value =>
            match value with
            | .sString s => some (.ok (goField.setString s))
            | .sInt k v =>
              if k.isSigned then some (.ok (goField.setInt v))
              else if k = .uptr then some (.error "internal error, type missmatch on enum")
              else some (.ok (goField.setUint v))
            | _ => some (.error "internal error, type missmatch on enum")
      | .vInt intValue =>
        match goFieldKind with
        | .Int | .Int8 | .Int16 | .Int32 | .Int64 =>
          some (.ok (goField.setInt intValue))
        | .Uint | .Uint8 | .Uint16 | .Uint32 | .Uint64 =>
          some (.ok (goField.setUint (truncUnsigned 64 intValue)))
        | .Float32 | .Float64 =>
          some (.ok (goField.setFloat ⟨intValue⟩))
        | _ => some mismatchError
      | .vFloat floatValue =>
        match goFieldKind with
        | .Float32 | .Float64 => some (.ok (goField.setFloat floatValue))
        | _ => some mismatchError
      | .vString stringValue =>
        if goFieldKind = RKind.String then some (.ok (goField.setString stringValue))
        else some mismatchError
      | .vBool booleanValue =>
        if goFieldKind = RKind.Bool then some (.ok (goField.setBool booleanValue))
        else some mismatchError
      | .vList listValue =>
        if goFieldKind = RKind.Array then some (.error "fixed length arrays not supported")
        else if goFieldKind = RKind.Slice then
          let elemInput := goAnylizedData.elem.getD defaultInput
          match matchList fuel sch listValue 0 (zeroOfInput elemInput) elemInput with
          | none => none
          | some (.error e) => some (.error e)
          | some (.ok vs) => some (.ok (goField.setSlice vs))
        else some mismatchError
      | .vObject objectValue =>
        if goFieldKind = RKind.Struct then
          let inp :=
            if goAnylizedData.isStructPointers then
              (List.lookup goAnylizedData.structName sch.inTypes).getD defaultInput
            else goAnylizedData
          matchObject fuel sch objectValue goField inp.structContent
        else some mismatchError

def matchList (fuel : Nat) (sch : Schema) (items : List Value) (i : Nat)
    (elemZero : GoValue) (elemInput : Input) : Option (Except String (List GoValue)) :=
  match fuel with
  | 0 => none
  | fuel + 1 =>
    match items with
    | [] => some (.ok [])
    | item :: rest =>
      match matchInputValue fuel sch item elemZero elemInput with
      | none => none
      | some (.error err) =>
        some (.error (err ++ ", Array index: [" ++ toString i ++ "]"))
      | some (.ok v) =>
        match matchList fuel sch rest (i + 1) elemZero elemInput with
        | none => none
        | some (.error e) => some (.error e)
        | some (.ok vs) => some (.ok (v :: vs))

def matchObject (fuel : Nat) (sch : Schema) (entries : List (String × Value))
    (goField : GoValue) (structContent : List (String × Input)) :
    Option (Except String GoValue) :=
  match fuel with
  | 0 => none
  | fuel + 1 =>
    match entries with
    | [] => some (.ok goField)
    | (queryKey, arg) :: rest =>
      match List.lookup queryKey structContent with
      | none => some (.error ("undefined property " ++ queryKey))
      | some structItemMeta =>
        let field := goField.fieldByName structItemMeta.goFieldName
          (zeroOfInput structItemMeta)
        match matchInputValue fuel sch arg field structItemMeta with
        | none => none
        | some (.error err) => some (.error (err ++ ", property: " ++ queryKey))
        | some (.ok nf) =>
          matchObject fuel sch rest (goField.setField structItemMeta.goFieldName nf)
            structContent
end

/- The executor proper: `resolveSelection`, `resolveSelectionContent`
(whose `for` loop over the selection set becomes
`resolveSelectionContentLoop`, carrying the loop state `res` /
`writtenToRes`), `resolveField`, `resolveFieldDataValue` (whose argument
`for` loop becomes `resolveMethodArgs` and whose element loop becomes
`resolveList`).

Every function takes a fuel parameter and returns `none` on exhaustion:
the Go code can diverge (cyclic fragment spreads re-enter
`resolveSelectionContent` at the same depth), so the recursion cannot be
grounded structurally.  Every `some` result is exactly the source's
behaviour.  `dept` is a Go `uint8`: the increment is taken modulo 256. -/
mutual
def resolveSelection (fuel : Nat) (c : Ctx) (selectionSet : List Selection)
    (struct_ : GoValue) (structType : Obj) (dept : Nat) : Option (String × Ctx) :=
  match fuel with
  | 0 => none
  | fuel + 1 =>
    if c.schema.MaxDepth ≤ dept then
      some ("null", c.addErr "reached max dept")
    else
      match resolveSelectionContent fuel c selectionSet struct_ structType
          ((dept + 1) % 256) with
      | none => none
      | some (s, c1) => some ("\x7b" ++ s ++ "\x7d", c1)

def resolveSelectionContent (fuel : Nat) (c : Ctx) (selectionSet : List Selection)
    (struct_ : GoValue) (structType : Obj) (dept : Nat) : Option (String × Ctx) :=
  match fuel with
  | 0 => none
  | fuel + 1 =>
    resolveSelectionContentLoop fuel c selectionSet struct_ structType dept "" false

def resolveSelectionContentLoop (fuel : Nat) (c : Ctx) (selections : List Selection)
    (struct_ : GoValue) (structType : Obj) (dept : Nat) (res : String)
    (writtenToRes : Bool) : Option (String × Ctx) :=
  match fuel with
  | 0 => none
  | fuel + 1 =>
    match selections with
    | [] => some (res, c)
    | selection :: rest =>
      match selection with
      | .field f =>
        match resolveField fuel c f struct_ structType dept with
        | none => none
        | some (value, hasError, c1) =>
          if hasError then
            resolveSelectionContentLoop fuel c1 rest struct_ structType dept res writtenToRes
          else
            resolveSelectionContentLoop fuel c1 rest struct_ structType dept
              ((if writtenToRes then res ++ "," else res) ++ value) true
      | .fragmentSpread name =>
        match List.lookup name c.fragments with
        | none =>
          resolveSelectionContentLoop fuel (c.addErr ("unknown fragment " ++ name)) rest
            struct_ structType dept res writtenToRes
        | some operator =>
          match resolveSelectionContent fuel c operator.fragment.selection struct_
              structType dept with
          | none => none
          | some (value, c1) =>
            if value.length > 0 then
              resolveSelectionContentLoop fuel c1 rest struct_ structType dept
                ((if writtenToRes then res ++ "," else res) ++ value) true
            else
              resolveSelectionContentLoop fuel c1 rest struct_ structType dept res writtenToRes
      | .inlineFragment _ sel =>
        match resolveSelectionContent fuel c sel struct_ structType dept with
        | none => none
        | some (value, c1) =>
          if value.length > 0 then
            resolveSelectionContentLoop fuel c1 rest struct_ structType dept
              ((if writtenToRes then res ++ "," else res) ++ value) true
          else
            resolveSelectionContentLoop fuel c1 rest struct_ structType dept res writtenToRes

def resolveField (fuel : Nat) (c : Ctx) (query : Field) (struct_ : GoValue)
    (codeStructure : Obj) (dept : Nat) : Option (String × Bool × Ctx) :=
  match fuel with
  | 0 => none
  | fuel + 1 =>
    let res := fun (data : String) =>
      "\"" ++ (if query.alias_.length > 0 then query.alias_ else query.name) ++ "\":" ++ data
    match List.lookup query.name codeStructure.objContents with
    | none =>
      some (res "null", true,
        c.addErr ("field " ++ query.name ++ " does not exists on " ++ codeStructure.typeName))
    | some structItem =>
      let value :=
        match structItem.customObjValue with
        | some cv => cv
        | none =>
          if structItem.valueType = VT.method ∧
              (structItem.method.getD defaultMethodMeta).isTypeMethod = true then
            struct_.methodByName structItem.structFieldName
          else
            struct_.fieldByName structItem.structFieldName GoValue.vInvalid
      match resolveFieldDataValue fuel c query value structItem dept with
      | none => none
      | some (fieldValue, returnedOnError, c1) => some (res fieldValue, returnedOnError, c1)

def resolveMethodArgs (fuel : Nat) (c : Ctx) (fname : String)
    (args : List (String × Value)) (method : MethodMeta) (inputs : List GoValue) :
    Option (Ctx × Option (List GoValue)) :=
  match fuel with
  | 0 => none
  | fuel + 1 =>
    match args with
    | [] => some (c, some inputs)
    | (queryKey, queryValue) :: rest =>
      match List.lookup queryKey method.inFields with
      | none =>
        resolveMethodArgs fuel
          (c.addErr ("undefined function " ++ fname ++ " input: " ++ queryKey))
          fname rest method inputs
      | some inField =>
        let goField := (inputs.getD inField.inputIdx GoValue.vInvalid).fieldByName
          inField.input.goFieldName (zeroOfInput inField.input)
        match matchInputValue fuel c.schema queryValue goField inField.input with
        | none => none
        | some (.error err) =>
          some (c.addErr (err ++ ", function: " ++ fname ++ ", property: " ++ queryKey), none)
        | some (.ok nf) =>
          resolveMethodArgs fuel c fname rest method
            (inputs.set inField.inputIdx
              ((inputs.getD inField.inputIdx GoValue.vInvalid).setField
                inField.input.goFieldName nf))

def resolveFieldDataValue (fuel : Nat) (c : Ctx) (query : Field) (value : GoValue)
    (codeStructure : Obj) (dept : Nat) : Option (String × Bool × Ctx) :=
  match fuel with
  | 0 => none
  | fuel + 1 =>
    match codeStructure.valueType with
    | .method =>
      match value with
      -- a nil method value resolves to null with the errored flag unset
      | .vFunc none => some ("null", false, c)
      | .vFunc (some outs) =>
        let method := codeStructure.method.getD defaultMethodMeta
        let inputs := method.ins.map (fun inn =>
          if inn.isCtx then GoValue.vCtx else inn.zero)
        match resolveMethodArgs fuel c query.name query.arguments method inputs with
        | none => none
        | some (c1, none) => some ("null", true, c1)
        | some (c1, some finalInputs) =>
          -- outs := value.Call(inputs); the invocation is recorded in the
          -- ghost trace, the func value supplies the constant outputs
          let c2 := { c1 with calls := c1.calls ++ [finalInputs] }
          match method.errorOutNr with
          | none =>
            resolveFieldDataValue fuel c2 query (outs.getD method.outNr GoValue.vInvalid)
              method.outType dept
          | some errorOutNr =>
            match outs.getD errorOutNr GoValue.vInvalid with
            | .vErr none =>
              resolveFieldDataValue fuel c2 query (outs.getD method.outNr GoValue.vInvalid)
                method.outType dept
            | .vErr (some e) =>
              if e.isError = false then
                some ("null", true,
                  c2.addErr ("field " ++ query.name ++ " returned a invalid kind of error"))
              else
                -- err != nil always holds after a successful assertion on a
                -- non-nil interface, so the message is recorded; execution
                -- falls through to serialise the value output regardless
                resolveFieldDataValue fuel (c2.addErr e.msg) query
                  (outs.getD method.outNr GoValue.vInvalid) method.outType dept
            | _ =>
              -- the reflector guarantees the designated error output is an
              -- error interface; other shapes would panic in `IsNil`
              resolveFieldDataValue fuel c2 query (outs.getD method.outNr GoValue.vInvalid)
                method.outType dept
      | _ =>
        -- `value.IsNil()` on a non-func value panics in reflect; unreachable
        -- when the schema mirrors the root value, modelled as the nil case
        some ("null", false, c)
    | .array =>
      match value with
      | .vSlice isNil elems =>
        if isNil then some ("null", false, c)
        else
          match codeStructure.innerContent with
          | none =>
            some ("null", true,
              c.addErr ("field " ++ query.name ++ " does not have an internal type of an array"))
          | some inner =>
            match resolveList fuel c query elems inner dept with
            | none => none
            | some (list, c1) =>
              some ("[" ++ String.intercalate "," list ++ "]", false, c1)
      | _ => some ("null", false, c)
    | .obj | .objRef =>
      if query.selection.length = 0 then
        some ("null", true, c.addErr ("field " ++ query.name ++ " must have a selection"))
      else
        match (if codeStructure.valueType = VT.objRef then
            List.lookup codeStructure.typeName c.schema.types
          else some codeStructure) with
        | none =>
          some ("null", true, c.addErr ("field " ++ query.name ++ " cannot have a selection"))
        | some codeStructure1 =>
          match resolveSelection fuel c query.selection value codeStructure1 dept with
          | none => none
          | some (val, c1) => some (val, false, c1)
    | .data =>
      if query.selection.length > 0 then
        some ("null", true, c.addErr ("field " ++ query.name ++ " cannot have a selection"))
      else
        -- the error return of valueToJson is discarded by the source
        some ((valueToJson value).1, false, c)
    | .ptr =>
      match value with
      | .vPtr _ (some inner) =>
        resolveFieldDataValue fuel c query inner
          (codeStructure.innerContent.getD defaultObj) dept
      | _ => some ("null", false, c)
    | .enum =>
      let enum := (List.lookup codeStructure.enumKey c.schema.definedEnums).getD defaultGqlEnum
      match value with
      | .vScalar s =>
        match List.lookup s enum.valueKey with
        | none => some ("null", false, c)
        | some key => some ("\"" ++ key ++ "\"", false, c)
      | _ => some ("null", false, c)
    | .undefined =>
      some ("null", true, c.addErr ("field " ++ query.name ++ " has invalid data type"))

def resolveList (fuel : Nat) (c : Ctx) (query : Field) (elems : List GoValue)
    (codeStructure : Obj) (dept : Nat) : Option (List String × Ctx) :=
  match fuel with
  | 0 => none
  | fuel + 1 =>
    match elems with
    | [] => some ([], c)
    | e :: rest =>
      match resolveFieldDataValue fuel c query e codeStructure dept with
      | none => none
      | some (res, _, c1) =>
        -- the per-element errored flag is discarded (`res, _ :=` in the source)
        match resolveList fuel c1 query rest codeStructure dept with
        | none => none
        | some (list, c2) => some (res :: list, c2)
end

/-- `ctx.start`: push the operator's directives, then dispatch on the
operation type. -/
def Ctx.start (fuel : Nat) (ctx : Ctx) (operator : Operator) : Option (String × Ctx) :=
  let ctx :=
    if operator.directives.length > 0 then
      { ctx with directvies := ctx.directvies ++ [operator.directives] }
    else ctx
  if operator.operationType = "query" then
    resolveSelection fuel ctx operator.selection ctx.schema.rootQueryValue
      ctx.schema.rootQuery 0
  else if operator.operationType = "mutation" then
    resolveSelection fuel ctx operator.selection ctx.schema.rootQueryValue
      ctx.schema.rootMethod 0
  else if operator.operationType = "subscription" then
    some ("\x7b\x7d", ctx.addErr "subscription not suppored yet")
  else
    some ("\x7b\x7d", ctx.addErr (operator.operationType ++ " cannot be used as operator"))

/-- `Schema.Resolve` from the point where `ParseQueryAndCheckNames` has
returned (the parser lives outside `resolve.go`; its results — the
fragment map, the operator map and the parse error list — are taken as
arguments, association lists standing in for Go maps, whose iteration
order the source does not rely on beyond picking the single entry).  The
schema mutex is not modelled: the call is single-threaded here. -/
def Schema.Resolve (s : Schema) (fuel : Nat) (fragments : List (String × Operator))
    (operatorsMap : List (String × Operator)) (parseErrs : List String)
    (operatorTarget : String) : Option (String × List String) :=
  if parseErrs.length > 0 then some ("\x7b\x7d", parseErrs)
  else
    let ctx : Ctx := ⟨fragments, s, [], [], [], []⟩
    match operatorsMap with
    | [] => some ("\x7b\x7d", [])
    | [(_, operator)] =>
      match ctx.start fuel operator with
      | none => none
      | some (res, c1) => some (res, c1.errors)
    | _ =>
      if operatorTarget = "" then
        some ("\x7b\x7d", ["multiple operators without target"])
      else
        match List.lookup operatorTarget operatorsMap with
        | some operator =>
          match ctx.start fuel operator with
          | none => none
          | some (res, c1) => some (res, c1.errors)
        | none =>
          some ("\x7b\x7d",
            [operatorTarget ++ " is not a valid operator, available operators: " ++
              String.intercalate ", " (operatorsMap.map Prod.fst)])

/-! ### Error accumulation

The execution context only ever appends to its error list; `errorsExtend`
captures that the final context's errors are the initial ones plus a
suffix.  This is the formal backbone of "an error, once recorded, stays in
the result". -/

/-- `c1`'s error list extends `c`'s. -/
def errorsExtend (c c1 : Ctx) : Prop := ∃ tl, c1.errors = c.errors ++ tl

theorem errorsExtend_refl (c : Ctx) : errorsExtend c c := ⟨[], by simp⟩

theorem errorsExtend_trans {a b c : Ctx} (h1 : errorsExtend a b)
    (h2 : errorsExtend b c) : errorsExtend a c := by
  obtain ⟨t1, e1⟩ := h1
  obtain ⟨t2, e2⟩ := h2
  exact ⟨t1 ++ t2, by simp [e2, e1]⟩

theorem errorsExtend_addErr (c : Ctx) (e : String) : errorsExtend c (c.addErr e) :=
  ⟨[e], rfl⟩

theorem errorsExtend_addErr_left {c c1 : Ctx} (e : String)
    (h : errorsExtend (c.addErr e) c1) : errorsExtend c c1 :=
  errorsExtend_trans (errorsExtend_addErr c e) h

theorem errorsExtend_calls (c : Ctx) (is : List GoValue) :
    errorsExtend c { c with calls := c.calls ++ [is] } :=
  ⟨[], by simp⟩

theorem errorsExtend_mem {c c1 : Ctx} {e : String} (h : errorsExtend c c1)
    (hm : e ∈ c.errors) : e ∈ c1.errors := by
  obtain ⟨tl, et⟩ := h
  simp [et, hm]

/-- Error accumulation is monotone across the whole executor: whenever any
of the mutually recursive resolver functions returns, the resulting
context's error list extends the input context's error list (the executor
only ever appends errors, never removes them). -/
theorem resolve_errorsExtend (fuel : Nat) :
    (∀ c sel v t dept r c1,
      resolveSelection fuel c sel v t dept = some (r, c1) → errorsExtend c c1) ∧
    (∀ c sel v t dept r c1,
      resolveSelectionContent fuel c sel v t dept = some (r, c1) → errorsExtend c c1) ∧
    (∀ c sels v t dept res w r c1,
      resolveSelectionContentLoop fuel c sels v t dept res w = some (r, c1) →
        errorsExtend c c1) ∧
    (∀ c q v t dept r b c1,
      resolveField fuel c q v t dept = some (r, b, c1) → errorsExtend c c1) ∧
    (∀ c fn args m ins c1 o,
      resolveMethodArgs fuel c fn args m ins = some (c1, o) → errorsExtend c c1) ∧
    (∀ c q v t dept r b c1,
      resolveFieldDataValue fuel c q v t dept = some (r, b, c1) → errorsExtend c c1) ∧
    (∀ c q es t dept l c1,
      resolveList fuel c q es t dept = some (l, c1) → errorsExtend c c1) := by
  induction fuel with
  | zero =>
    refine ⟨?_, ?_, ?_, ?_, ?_, ?_, ?_⟩ <;> intros <;> rename_i h <;>
      simp only [resolveSelection, resolveSelectionContent,
        resolveSelectionContentLoop, resolveField, resolveMethodArgs,
        resolveFieldDataValue, resolveList] at h <;>
      exact Option.noConfusion h
  | succ fuel ih =>
    obtain ⟨ihS, ihC, ihL, ihF, ihA, ihD, ihR⟩ := ih
    refine ⟨?_, ?_, ?_, ?_, ?_, ?_, ?_⟩
    · -- resolveSelection
      intro c sel v t dept r c1 h
      simp only [resolveSelection] at h
      repeat' split at h
      all_goals try exact Option.noConfusion h
      all_goals try simp only [Option.some.injEq, Prod.mk.injEq] at h
      all_goals try obtain ⟨rfl, rfl⟩ := h
      all_goals first
        | exact errorsExtend_addErr _ _
        | exact ihC _ _ _ _ _ _ _ (by assumption)
    · -- resolveSelectionContent
      intro c sel v t dept r c1 h
      simp only [resolveSelectionContent] at h
      exact ihL _ _ _ _ _ _ _ _ _ h
    · -- resolveSelectionContentLoop
      intro c sels v t dept res w r c1 h
      cases sels
      all_goals try (rename_i selhd seltl; cases selhd)
      all_goals simp only [resolveSelectionContentLoop] at h
      all_goals repeat' split at h
      all_goals try exact Option.noConfusion h
      all_goals try simp only [Option.some.injEq, Prod.mk.injEq] at h
      all_goals try obtain ⟨rfl, rfl⟩ := h
      all_goals first
        | exact errorsExtend_refl _
        | exact errorsExtend_addErr_left _ (ihL _ _ _ _ _ _ _ _ _ h)
        | exact errorsExtend_trans (ihF _ _ _ _ _ _ _ _ (by assumption))
            (ihL _ _ _ _ _ _ _ _ _ h)
        | exact errorsExtend_trans (ihC _ _ _ _ _ _ _ (by assumption))
            (ihL _ _ _ _ _ _ _ _ _ h)
    · -- resolveField
      intro c q v t dept r b c1 h
      simp only [resolveField] at h
      repeat' split at h
      all_goals try exact Option.noConfusion h
      all_goals try simp only [Option.some.injEq, Prod.mk.injEq] at h
      all_goals try obtain ⟨rfl, rfl, rfl⟩ := h
      all_goals first
        | exact errorsExtend_addErr _ _
        | exact ihD _ _ _ _ _ _ _ _ (by assumption)
    · -- resolveMethodArgs
      intro c fn args m ins c1 o h
      simp only [resolveMethodArgs] at h
      repeat' split at h
      all_goals try exact Option.noConfusion h
      all_goals try simp only [Option.some.injEq, Prod.mk.injEq] at h
      all_goals try obtain ⟨rfl, rfl⟩ := h
      all_goals first
        | exact errorsExtend_refl _
        | exact errorsExtend_addErr _ _
        | exact errorsExtend_addErr_left _ (ihA _ _ _ _ _ _ _ h)
        | exact ihA _ _ _ _ _ _ _ h
    · -- resolveFieldDataValue
      intro c q v t dept r b c1 h
      cases v
      all_goals try (rename_i o; rcases o with _ | _)
      all_goals simp only [resolveFieldDataValue] at h
      all_goals repeat' split at h
      all_goals try exact Option.noConfusion h
      all_goals try simp only [Option.some.injEq, Prod.mk.injEq] at h
      all_goals try obtain ⟨rfl, rfl, rfl⟩ := h
      all_goals first
        | exact errorsExtend_refl _
        | exact errorsExtend_addErr _ _
        | exact ihR _ _ _ _ _ _ _ (by assumption)
        | exact ihS _ _ _ _ _ _ _ (by assumption)
        | exact ihA _ _ _ _ _ _ _ (by assumption)
        | exact ihD _ _ _ _ _ _ _ _ h
        | exact errorsExtend_trans (ihA _ _ _ _ _ _ _ (by assumption))
            (errorsExtend_trans (errorsExtend_calls _ _)
              (ihD _ _ _ _ _ _ _ _ h))
        | exact errorsExtend_trans (ihA _ _ _ _ _ _ _ (by assumption))
            (errorsExtend_trans (errorsExtend_calls _ _)
              (errorsExtend_addErr _ _))
        | exact errorsExtend_trans (ihA _ _ _ _ _ _ _ (by assumption))
            (errorsExtend_trans (errorsExtend_calls _ _)
              (errorsExtend_addErr_left _ (ihD _ _ _ _ _ _ _ _ h)))
    · -- resolveList
      intro c q es t dept l c1 h
      cases es
      all_goals simp only [resolveList] at h
      all_goals repeat' split at h
      all_goals try exact Option.noConfusion h
      all_goals try simp only [Option.some.injEq, Prod.mk.injEq] at h
      all_goals try obtain ⟨rfl, rfl⟩ := h
      all_goals first
        | exact errorsExtend_refl _
        | exact errorsExtend_trans (ihD _ _ _ _ _ _ _ _ (by assumption))
            (ihR _ _ _ _ _ _ _ (by assumption))

/-! ### Claims -/

/-- C1: with an empty error list `GenerateResponse(data, errors)` returns
exactly `{"data":<data>}` for every data string; with a non-empty error
list the claim (and the spec) require a comma between the `"data"` member
and the `"errors"` array, but the source emits none: at the failing input
`data = "{}"`, `errors = ["oops"]` the code produces
`{"data":{}"errors":[{"message":"oops"}]}` — malformed JSON with the two
members juxtaposed. -/
theorem claim_C1_generate_response :
    (∀ data, GenerateResponse data [] = "\x7b\"data\":" ++ data ++ "\x7d") ∧
    GenerateResponse "\x7b\x7d" ["oops"] =
      "\x7b\"data\":\x7b\x7d\"errors\":[\x7b\"message\":\"oops\"\x7d]\x7d" := by
  constructor
  · intro data; rfl
  · rfl

def c2Ctx : Ctx := ⟨[], ⟨defaultObj, defaultObj, .vStruct [] [], [], [], 0, []⟩, [], [], [], []⟩

def c2RootObj : Obj := .mk "QueryRoot" .obj [] none none "" "" none

def c2SchemaDeep : Schema := ⟨c2RootObj, c2RootObj, .vStruct [] [], [], [], 1, []⟩

def c2Op : Operator :=
  ⟨"x", "query",
    [.field (.mk "a" "" [] [] [.field (.mk "b" "" [] [] [.field (.mk "c" "" [] [] [])])])],
    [], ⟨"", "", []⟩⟩

/-- C2, counterexample to the claim as stated: entering `resolveSelection`
at the depth bound records the message `reached max dept` — not the
claimed `reached max depth` — and a query of static nesting depth 3
against `MaxDepth = 1` whose first field does not exist yields no
depth error at all (descent is cut by the unknown-field error first), so
the claimed message never appears in either situation. -/
theorem claim_C2_max_depth_counterexample :
    resolveSelection 1 c2Ctx [] (.vStruct [] []) defaultObj 0 =
      some ("null", c2Ctx.addErr "reached max dept") ∧
    (c2Ctx.addErr "reached max dept").errors = ["reached max dept"] ∧
    "reached max depth" ∉ (c2Ctx.addErr "reached max dept").errors ∧
    c2SchemaDeep.Resolve 9 [] [("x", c2Op)] [] "" =
      some ("\x7b\x7d", ["field a does not exists on QueryRoot"]) := by
  refine ⟨?_, ?_, ?_, ?_⟩
  · simp [resolveSelection, c2Ctx]
  · simp [Ctx.addErr, c2Ctx]
  · decide
  · simp [Schema.Resolve, Ctx.start, c2SchemaDeep, c2Op, c2RootObj, resolveSelection,
      resolveSelectionContent, resolveSelectionContentLoop, resolveField, Ctx.addErr,
      List.lookup, Field.name, Field.alias_, Obj.typeName, Obj.objContents]

/-- C2, as amended: entering `resolveSelection` with the depth counter at
or beyond `MaxDepth` records the error `reached max dept` (the source's
spelling) and returns `null` without descending; and once recorded the
error persists to the final result — the depth check at every entry plus
the executor's append-only error accumulation (`resolve_errorsExtend`)
give that every resolution that enters selection resolution at or beyond
`MaxDepth` carries at least one `reached max dept` error in its final
error list. -/
theorem claim_C2_max_depth :
    (∀ fuel c sel v t dept, c.schema.MaxDepth ≤ dept →
      resolveSelection (fuel + 1) c sel v t dept =
        some ("null", c.addErr "reached max dept")) ∧
    (∀ fuel c sel v t dept r c1, resolveSelection fuel c sel v t dept = some (r, c1) →
      c.schema.MaxDepth ≤ dept → "reached max dept" ∈ c1.errors) ∧
    (∀ fuel c sel v t dept r c1, resolveSelection fuel c sel v t dept = some (r, c1) →
      "reached max dept" ∈ c.errors → "reached max dept" ∈ c1.errors) ∧
    (∀ fuel c sels v t dept res w r c1,
      resolveSelectionContentLoop fuel c sels v t dept res w = some (r, c1) →
      "reached max dept" ∈ c.errors → "reached max dept" ∈ c1.errors) ∧
    (∀ fuel c q v t dept r b c1, resolveField fuel c q v t dept = some (r, b, c1) →
      "reached max dept" ∈ c.errors → "reached max dept" ∈ c1.errors) ∧
    (∀ fuel c q v t dept r b c1, resolveFieldDataValue fuel c q v t dept = some (r, b, c1) →
      "reached max dept" ∈ c.errors → "reached max dept" ∈ c1.errors) := by
  refine ⟨?_, ?_, ?_, ?_, ?_, ?_⟩
  · intro fuel c sel v t dept hd
    simp only [resolveSelection]
    rw [if_pos hd]
  · intro fuel c sel v t dept r c1 h hd
    cases fuel with
    | zero => simp [resolveSelection] at h
    | succ fuel =>
      simp only [resolveSelection] at h
      rw [if_pos hd] at h
      obtain ⟨rfl, rfl⟩ := Prod.mk.inj (Option.some.inj h)
      simp [Ctx.addErr]
  · intro fuel c sel v t dept r c1 h hm
    exact errorsExtend_mem ((resolve_errorsExtend fuel).1 _ _ _ _ _ _ _ h) hm
  · intro fuel c sels v t dept res w r c1 h hm
    exact errorsExtend_mem ((resolve_errorsExtend fuel).2.2.1 _ _ _ _ _ _ _ _ _ h) hm
  · intro fuel c q v t dept r b c1 h hm
    exact errorsExtend_mem ((resolve_errorsExtend fuel).2.2.2.1 _ _ _ _ _ _ _ _ h) hm
  · intro fuel c q v t dept r b c1 h hm
    exact errorsExtend_mem ((resolve_errorsExtend fuel).2.2.2.2.2.1 _ _ _ _ _ _ _ _ h) hm

/-- C2, witness: the amended theorem applied at a concrete schema with
`MaxDepth = 0`, entered at depth 0. -/
theorem claim_C2_max_depth_witness :
    resolveSelection 1 c2Ctx [] (.vStruct [] []) defaultObj 0 =
      some ("null", c2Ctx.addErr "reached max dept") ∧
    "reached max dept" ∈ (c2Ctx.addErr "reached max dept").errors := by
  constructor
  · exact claim_C2_max_depth.1 0 c2Ctx [] (.vStruct [] []) defaultObj 0 (by decide)
  · exact claim_C2_max_depth.2.1 1 c2Ctx [] (.vStruct [] []) defaultObj 0 _ _
      (claim_C2_max_depth.1 0 c2Ctx [] (.vStruct [] []) defaultObj 0 (by decide))
      (by decide)

def c3T : Obj := .mk "Bar" .obj [] none none "" "" none

def c3Q : Field := .mk "foo" "" [] [] []

def c3Ctx : Ctx := ⟨[], ⟨defaultObj, defaultObj, .vStruct [] [], [], [], 5, []⟩, [], [], [], []⟩

/-- C3, counterexample to the claim as stated: for the field `foo` queried
on the empty type `Bar` the executor records
`field foo does not exists on Bar` (the source's `exists`), not the
claimed `field foo does not exist on Bar`. -/
theorem claim_C3_unknown_field_counterexample :
    resolveField 1 c3Ctx c3Q (.vStruct [] []) c3T 0 =
      some ("\"foo\":null", true, c3Ctx.addErr "field foo does not exists on Bar") ∧
    (c3Ctx.addErr "field foo does not exists on Bar").errors =
      ["field foo does not exists on Bar"] ∧
    "field foo does not exist on Bar" ∉
      (c3Ctx.addErr "field foo does not exists on Bar").errors := by
  refine ⟨?_, ?_, ?_⟩
  · simp [resolveField, c3Ctx, c3Q, c3T, Field.name, Field.alias_, Obj.objContents,
      Obj.typeName, List.lookup, Ctx.addErr]
  · simp [Ctx.addErr, c3Ctx]
  · decide

/-- C3, as amended: a field selection whose name is absent from the
current object's reflected `objContents` records the error
`field X does not exists on Y` (the source's spelling), resolves to
`null` under the alias-or-name key with the errored flag set, and a field
resolution returning with the errored flag set contributes nothing to the
enclosing object body — the selection loop continues with the updated
context and unchanged accumulated output, omitting the field's key. -/
theorem claim_C3_unknown_field :
    (∀ fuel c (q : Field) v (t : Obj) dept,
      List.lookup q.name t.objContents = none →
      resolveField (fuel + 1) c q v t dept =
        some ("\"" ++ (if q.alias_.length > 0 then q.alias_ else q.name) ++ "\":null", true,
          c.addErr ("field " ++ q.name ++ " does not exists on " ++ t.typeName))) ∧
    (∀ fuel c (f : Field) rest v t dept res w val c1,
      resolveField fuel c f v t dept = some (val, true, c1) →
      resolveSelectionContentLoop (fuel + 1) c (.field f :: rest) v t dept res w =
        resolveSelectionContentLoop fuel c1 rest v t dept res w) := by
  constructor
  · intro fuel c q v t dept hl
    simp only [resolveField, hl]
    rw [String.append_assoc]
    rfl
  · intro fuel c f rest v t dept res w val c1 h
    simp only [resolveSelectionContentLoop, h]
    simp

/-- C3, witness: the amended theorem applied to the field `foo` on the
empty type `Bar`. -/
theorem claim_C3_unknown_field_witness :
    resolveField 1 c3Ctx c3Q (.vStruct [] []) c3T 0 =
      some ("\"foo\":null", true, c3Ctx.addErr "field foo does not exists on Bar") ∧
    resolveSelectionContentLoop 2 c3Ctx [.field c3Q] (.vStruct [] []) c3T 0 "" false =
      resolveSelectionContentLoop 1 (c3Ctx.addErr "field foo does not exists on Bar") []
        (.vStruct [] []) c3T 0 "" false := by
  constructor
  · have h := claim_C3_unknown_field.1 0 c3Ctx c3Q (.vStruct [] []) c3T 0
      (by simp [c3Q, c3T, Field.name, Obj.objContents])
    simpa [c3Q, c3T, Field.name, Field.alias_, Obj.typeName] using h
  · exact claim_C3_unknown_field.2 1 c3Ctx c3Q [] (.vStruct [] []) c3T 0 "" false _ _
      (by
        have h := claim_C3_unknown_field.1 0 c3Ctx c3Q (.vStruct [] []) c3T 0
          (by simp [c3Q, c3T, Field.name, Obj.objContents])
        simpa [c3Q, c3T, Field.name, Field.alias_, Obj.typeName] using h)

/-- C4: operator choice in `Resolve` (taken after a successful parse):
zero parsed operators give `{}` with no error; exactly one executes
unconditionally, whatever the `operatorTarget`; more than one with an
empty target gives `{}` with the single error
`multiple operators without target`; more than one with a non-empty
target naming no operator gives `{}` with an error listing the available
operator names. -/
theorem claim_C4_operator_choice :
    (∀ fuel (s : Schema) frags (target : String),
      s.Resolve fuel frags [] [] target = some ("\x7b\x7d", [])) ∧
    (∀ fuel (s : Schema) frags name op (target : String),
      s.Resolve fuel frags [(name, op)] [] target =
        match Ctx.start fuel ⟨frags, s, [], [], [], []⟩ op with
        | none => none
        | some (res, c1) => some (res, c1.errors)) ∧
    (∀ fuel (s : Schema) frags ops, 2 ≤ ops.length →
      s.Resolve fuel frags ops [] "" =
        some ("\x7b\x7d", ["multiple operators without target"])) ∧
    (∀ fuel (s : Schema) frags ops target, 2 ≤ ops.length → ¬target = "" →
      List.lookup target ops = none →
      s.Resolve fuel frags ops [] target =
        some ("\x7b\x7d",
          [target ++ " is not a valid operator, available operators: " ++
            String.intercalate ", " (ops.map Prod.fst)])) := by
  refine ⟨?_, ?_, ?_, ?_⟩
  · intro fuel s frags target
    simp [Schema.Resolve]
  · intro fuel s frags name op target
    simp [Schema.Resolve]
  · intro fuel s frags ops h
    match ops with
    | [] => simp at h
    | [a] => simp at h
    | a :: b :: t => simp [Schema.Resolve]
  · intro fuel s frags ops target h ht hl
    match ops with
    | [] => simp at h
    | [a] => simp at h
    | a :: b :: t => simp [Schema.Resolve, ht, hl]

def c4Obj : Obj := .mk "QueryRoot" .obj [] none none "" "" none

def c4Sch : Schema := ⟨c4Obj, c4Obj, .vStruct [] [], [], [], 5, []⟩

def c4OpA : Operator := ⟨"A", "query", [], [], ⟨"", "", []⟩⟩

def c4OpB : Operator := ⟨"B", "query", [], [], ⟨"", "", []⟩⟩

/-- C4, witness: two operators `A` and `B`; the empty target and the
unknown target `C`. -/
theorem claim_C4_operator_choice_witness :
    c4Sch.Resolve 3 [] [("A", c4OpA), ("B", c4OpB)] [] "" =
      some ("\x7b\x7d", ["multiple operators without target"]) ∧
    c4Sch.Resolve 3 [] [("A", c4OpA), ("B", c4OpB)] [] "C" =
      some ("\x7b\x7d", ["C is not a valid operator, available operators: A, B"]) := by
  constructor
  · exact claim_C4_operator_choice.2.2.1 3 c4Sch [] [("A", c4OpA), ("B", c4OpB)] (by decide)
  · have h := claim_C4_operator_choice.2.2.2 3 c4Sch [] [("A", c4OpA), ("B", c4OpB)] "C"
      (by decide) (by decide) (by rfl)
    simpa using h

/-- The values that fall through to `valueToJson`'s `default` branch:
everything except the scalar kinds and the fifteen pointer-to-scalar
types of the type switch. -/
def jsonUnsupported : GoValue → Bool
  | .vScalar _ => false
  | .vPtr .pOther _ => true
  | .vPtr _ _ => false
  | _ => true

/-- C7: `valueToJson` maps each leaf scalar to its JSON token — booleans
to `true`/`false`, integers of any width to their decimal form, strings
to their escaped quoted form — resolves typed pointers before
serialisation (nil pointer of a supported type: `null` with no error;
non-nil: dereference and serialise the pointee), and returns `null`
together with the error `invalid data type` on every value of a type not
in the switch. -/
theorem claim_C7_value_to_json :
    (∀ b, valueToJson (.vScalar (.sBool b)) = (if b then "true" else "false", none)) ∧
    (∀ k v, valueToJson (.vScalar (.sInt k v)) = (toString v, none)) ∧
    (∀ s, valueToJson (.vScalar (.sString s)) = (goQuote s, none)) ∧
    (∀ ty, ¬ty = PtrElemTy.pOther → valueToJson (.vPtr ty none) = ("null", none)) ∧
    (∀ ty inner, ¬ty = PtrElemTy.pOther →
      valueToJson (.vPtr ty (some inner)) = valueToJson inner) ∧
    (∀ v, jsonUnsupported v = true →
      valueToJson v = ("null", some "invalid data type")) := by
  refine ⟨fun b => rfl, fun k v => rfl, fun s => rfl, ?_, ?_, ?_⟩
  · intro ty h
    simp [valueToJson, h]
  · intro ty inner h
    simp [valueToJson, h]
  · intro v h
    cases v with
    | vScalar s => simp [jsonUnsupported] at h
    | vPtr ty o =>
      cases ty <;> simp [jsonUnsupported] at h <;> cases o <;> simp [valueToJson]
    | vSlice n es => rfl
    | vStruct fs ms => rfl
    | vFunc o => rfl
    | vErr e => rfl
    | vCtx => rfl
    | vInvalid => rfl

/-- C7, witness: a nil `*string`, a non-nil `*bool`, and a struct value
(not in the type switch). -/
theorem claim_C7_value_to_json_witness :
    valueToJson (.vPtr .pString none) = ("null", none) ∧
    valueToJson (.vPtr .pBool (some (.vScalar (.sBool true)))) = ("true", none) ∧
    valueToJson (.vStruct [] []) = ("null", some "invalid data type") := by
  refine ⟨claim_C7_value_to_json.2.2.2.1 PtrElemTy.pString (by decide), ?_,
    claim_C7_value_to_json.2.2.2.2.2 (.vStruct [] []) (by decide)⟩
  rw [claim_C7_value_to_json.2.2.2.2.1 PtrElemTy.pBool (.vScalar (.sBool true)) (by decide)]
  rfl

/-- The argument-coercion loop never performs a method call: the ghost
call trace is unchanged whatever it returns. -/
theorem resolveMethodArgs_calls (fuel : Nat) :
    ∀ c fname args m ins c1 o,
      resolveMethodArgs fuel c fname args m ins = some (c1, o) → c1.calls = c.calls := by
  induction fuel with
  | zero =>
    intro c fname args m ins c1 o h
    simp [resolveMethodArgs] at h
  | succ fuel ih =>
    intro c fname args m ins c1 o h
    cases args
    all_goals simp only [resolveMethodArgs] at h
    all_goals repeat' split at h
    all_goals try exact Option.noConfusion h
    all_goals try simp only [Option.some.injEq, Prod.mk.injEq] at h
    all_goals try obtain ⟨rfl, rfl⟩ := h
    all_goals first
      | rfl
      | (have hc := ih _ _ _ _ _ _ _ h; exact hc)

/-- C5: for a method-backed field whose method has a designated error
output, a non-nil error output that implements `error` has its message
recorded on the context, and execution still falls through to serialise
the method's value output (`outs[outNr]` against `method.outType`) as the
field's data. -/
theorem claim_C5_method_error_output :
    ∀ fuel c (q : Field) (t : Obj) dept outs (m : MethodMeta) c1 finalInputs ei msg,
      t.valueType = VT.method → t.method = some m → m.errorOutNr = some ei →
      outs.getD ei GoValue.vInvalid = .vErr (some ⟨true, msg⟩) →
      resolveMethodArgs fuel c q.name q.arguments m
          (m.ins.map (fun inn => if inn.isCtx then GoValue.vCtx else inn.zero)) =
        some (c1, some finalInputs) →
      resolveFieldDataValue (fuel + 1) c q (.vFunc (some outs)) t dept =
        resolveFieldDataValue fuel
          (Ctx.addErr { c1 with calls := c1.calls ++ [finalInputs] } msg) q
          (outs.getD m.outNr GoValue.vInvalid) m.outType dept := by
  intro fuel c q t dept outs m c1 finalInputs ei msg ht hm he ho ha
  simp only [resolveFieldDataValue, ht, hm, Option.getD_some, ha, he, ho]
  simp

def dataObjW : Obj := .mk "" .data [] none none "" "" none

def c5M : MethodMeta := .mk true [] [] (some 1) 0 dataObjW

def c5T : Obj := .mk "Root" .method [] none (some c5M) "" "F" none

def c5Q : Field := .mk "f" "" [] [] []

def c5Sch : Schema := ⟨defaultObj, defaultObj, .vStruct [] [], [], [], 5, []⟩

def c5Ctx : Ctx := ⟨[], c5Sch, [], [], [], []⟩

def c5Outs : List GoValue := [.vScalar (.sString "v"), .vErr (some ⟨true, "boom"⟩)]

/-- C5, witness: a no-argument method returning the string `"v"` and the
error `boom`; the error is recorded, the call is performed, and the value
output still serialises to `"v"`. -/
theorem claim_C5_method_error_output_witness :
    resolveFieldDataValue 3 c5Ctx c5Q (.vFunc (some c5Outs)) c5T 0 =
      resolveFieldDataValue 2 (⟨[], c5Sch, [], [], ["boom"], [[]]⟩ : Ctx) c5Q
        (.vScalar (.sString "v")) dataObjW 0 ∧
    resolveFieldDataValue 3 c5Ctx c5Q (.vFunc (some c5Outs)) c5T 0 =
      some ("\"v\"", false, (⟨[], c5Sch, [], [], ["boom"], [[]]⟩ : Ctx)) := by
  constructor
  · exact claim_C5_method_error_output 2 c5Ctx c5Q c5T 0 c5Outs c5M
      (⟨[], c5Sch, [], [], [], []⟩ : Ctx) [] 1 "boom" (by rfl) (by rfl) (by rfl)
      (by rfl) (by simp [resolveMethodArgs, c5M, c5Q, c5Ctx, c5Sch, Field.name,
        Field.arguments, MethodMeta.ins])
  · simp [resolveFieldDataValue, resolveMethodArgs, c5M, c5T, c5Q, c5Ctx, c5Outs, dataObjW,
      Field.name, Field.arguments, Field.selection, MethodMeta.ins, MethodMeta.inFields,
      MethodMeta.errorOutNr, MethodMeta.outNr, MethodMeta.outType, Obj.valueType, Obj.method,
      Ctx.addErr, List.lookup, valueToJson]
    rfl

/-- C6: a supplied method argument whose parsed literal fails coercion
makes the executor record `"<inner error>, function: F, property: P"`,
abort the argument loop, resolve the field to `null` with the errored
flag set, and never invoke the method (the ghost call trace is
unchanged). -/
theorem claim_C6_argument_coercion_error :
    (∀ fuel c fname k qv rest (m : MethodMeta) inputs inField err,
      List.lookup k m.inFields = some inField →
      matchInputValue fuel c.schema qv
          ((inputs.getD inField.inputIdx GoValue.vInvalid).fieldByName
            inField.input.goFieldName (zeroOfInput inField.input)) inField.input =
        some (.error err) →
      resolveMethodArgs (fuel + 1) c fname ((k, qv) :: rest) m inputs =
        some (c.addErr (err ++ ", function: " ++ fname ++ ", property: " ++ k), none)) ∧
    (∀ fuel c (q : Field) (t : Obj) dept outs (m : MethodMeta) c1,
      t.valueType = VT.method → t.method = some m →
      resolveMethodArgs fuel c q.name q.arguments m
          (m.ins.map (fun inn => if inn.isCtx then GoValue.vCtx else inn.zero)) =
        some (c1, none) →
      resolveFieldDataValue (fuel + 1) c q (.vFunc (some outs)) t dept =
        some ("null", true, c1) ∧ c1.calls = c.calls) := by
  constructor
  · intro fuel c fname k qv rest m inputs inField err hl hmi
    simp only [resolveMethodArgs, hl, hmi]
  · intro fuel c q t dept outs m c1 ht hm ha
    constructor
    · simp only [resolveFieldDataValue, ht, hm, Option.getD_some, ha]
    · exact resolveMethodArgs_calls fuel _ _ _ _ _ _ _ ha

def c6Input : Input := .mk .String none false "" false "" [] "Title"

def c6InF : FieldIn := .mk 0 c6Input

def c6Zero : GoValue := .vStruct [("Title", .vScalar (.sString ""))] []

def c6M : MethodMeta := .mk true [.mk false c6Zero] [("title", c6InF)] none 0 dataObjW

def c6T : Obj := .mk "Root" .method [] none (some c6M) "" "CreateTodo" none

def c6Q : Field := .mk "createTodo" "" [("title", .vInt 1)] [] []

def c6Sch : Schema := ⟨defaultObj, defaultObj, .vStruct [] [], [], [], 5, []⟩

def c6Ctx : Ctx := ⟨[], c6Sch, [], [], [], []⟩

def c6Msg : String :=
  "function arguments type missmatch expected a string, function: createTodo, property: title"

set_option maxRecDepth 8192 in
/-- C6, witness: `createTodo(title: 1)` against a string parameter — the
recorded error is the coercion message suffixed with the function and
property names, it contains `expected a string` and `property: title`,
the field resolves to `null` with the errored flag set, and no call is
recorded. -/
theorem claim_C6_argument_coercion_error_witness :
    resolveMethodArgs 3 c6Ctx "createTodo" [("title", .vInt 1)] c6M [c6Zero] =
      some (c6Ctx.addErr c6Msg, none) ∧
    resolveFieldDataValue 4 c6Ctx c6Q (.vFunc (some [.vScalar (.sString "x")])) c6T 0 =
      some ("null", true, (⟨[], c6Sch, [], [], [c6Msg], []⟩ : Ctx)) ∧
    (⟨[], c6Sch, [], [], [c6Msg], []⟩ : Ctx).calls = c6Ctx.calls ∧
    List.IsInfix "expected a string".toList c6Msg.toList ∧
    List.IsInfix "property: title".toList c6Msg.toList := by
  refine ⟨?_, ?_, ?_, ?_, ?_⟩
  · have h := claim_C6_argument_coercion_error.1 2 c6Ctx "createTodo" "title" (.vInt 1) []
      c6M [c6Zero] c6InF
      "function arguments type missmatch expected a string" (by rfl)
      (by simp [matchInputValue, c6Input, c6InF, c6Zero, c6Ctx, Input.kind, Input.elem,
        Input.isEnum, FieldIn.input, FieldIn.inputIdx, GoValue.fieldByName, zeroOfInput,
        GoValue.stripPtrKind, GoValue.rkind, mismatchWord, List.lookup])
    simpa [c6Msg] using h
  · have h2 := (claim_C6_argument_coercion_error.2 3 c6Ctx c6Q c6T 0
      [.vScalar (.sString "x")] c6M
      (⟨[], c6Sch, [], [], [c6Msg], []⟩ : Ctx) (by rfl) (by rfl)
      (by
        have h := claim_C6_argument_coercion_error.1 2 c6Ctx "createTodo" "title" (.vInt 1)
          [] c6M [c6Zero] c6InF
          "function arguments type missmatch expected a string" (by rfl)
          (by simp [matchInputValue, c6Input, c6InF, c6Zero, c6Ctx, Input.kind, Input.elem,
            Input.isEnum, FieldIn.input, FieldIn.inputIdx, GoValue.fieldByName, zeroOfInput,
            GoValue.stripPtrKind, GoValue.rkind, mismatchWord, List.lookup])
        simpa [c6Q, c6M, c6Msg, Field.name, Field.arguments, MethodMeta.ins, c6Zero,
          MethodMeta.isTypeMethod, MethodIn.isCtx, MethodIn.zero, Ctx.addErr, c6Ctx] using h))
    exact h2.1
  · rfl
  · decide
  · decide

/-- C8: a non-nil slice field with an array-typed `Obj` (and an inner
element type) resolves to the bracketed comma-joined list with exactly
one entry per element and the errored flag unset; each element's own
errored flag is discarded (an erroring element contributes its `null`
output as a list entry); and a field resolution returning with the flag
unset has its key appended to the enclosing object body, so a failing
element never suppresses the array's key. -/
theorem claim_C8_array_resolution :
    (∀ fuel c (q : Field) elems (t : Obj) inner dept, t.valueType = VT.array →
      t.innerContent = some inner →
      resolveFieldDataValue (fuel + 1) c q (.vSlice false elems) t dept =
        match resolveList fuel c q elems inner dept with
        | none => none
        | some (list, c1) =>
          some ("[" ++ String.intercalate "," list ++ "]", false, c1)) ∧
    (∀ fuel c (q : Field) e rest (t : Obj) dept s b c1,
      resolveFieldDataValue fuel c q e t dept = some (s, b, c1) →
      resolveList (fuel + 1) c q (e :: rest) t dept =
        match resolveList fuel c1 q rest t dept with
        | none => none
        | some (list, c2) => some (s :: list, c2)) ∧
    (∀ fuel c (f : Field) rest v t dept res w val c1,
      resolveField fuel c f v t dept = some (val, false, c1) →
      resolveSelectionContentLoop (fuel + 1) c (.field f :: rest) v t dept res w =
        resolveSelectionContentLoop fuel c1 rest v t dept
          ((if w then res ++ "," else res) ++ val) true) := by
  refine ⟨?_, ?_, ?_⟩
  · intro fuel c q elems t inner dept ht hi
    simp [resolveFieldDataValue, ht, hi]
  · intro fuel c q e rest t dept s b c1 h
    simp [resolveList, h]
  · intro fuel c f rest v t dept res w val c1 h
    simp only [resolveSelectionContentLoop, h]
    simp

def c8T : Obj := .mk "" .array [] (some defaultObj) none "" "Todos" none

def c8Q : Field := .mk "todos" "" [] [] []

def c8Sch : Schema := ⟨defaultObj, defaultObj, .vStruct [] [], [], [], 5, []⟩

def c8Ctx : Ctx := ⟨[], c8Sch, [], [], [], []⟩

def c8P : Obj := .mk "QueryRoot" .obj [("todos", c8T)] none none "" "" none

def c8V : GoValue := .vStruct [("Todos", .vSlice false [.vInvalid, .vInvalid])] []

def c8Msg : String := "field todos has invalid data type"

/-- C8, witness: a two-element slice whose elements both error (their
inner type is the `undefined` tag): each contributes a `null` entry, two
errors are recorded, the array resolves with the errored flag unset, and
the `todos` key is appended to the parent object body. -/
theorem claim_C8_array_resolution_witness :
    resolveFieldDataValue 9 c8Ctx c8Q (.vSlice false [.vInvalid, .vInvalid]) c8T 0 =
      (match resolveList 8 c8Ctx c8Q [.vInvalid, .vInvalid] defaultObj 0 with
       | none => none
       | some (list, c1) => some ("[" ++ String.intercalate "," list ++ "]", false, c1)) ∧
    resolveList 8 c8Ctx c8Q (.vInvalid :: [.vInvalid]) defaultObj 0 =
      (match resolveList 7 (c8Ctx.addErr c8Msg) c8Q [.vInvalid] defaultObj 0 with
       | none => none
       | some (list, c2) => some ("null" :: list, c2)) ∧
    resolveFieldDataValue 9 c8Ctx c8Q (.vSlice false [.vInvalid, .vInvalid]) c8T 0 =
      some ("[null,null]", false, (⟨[], c8Sch, [], [], [c8Msg, c8Msg], []⟩ : Ctx)) ∧
    resolveField 10 c8Ctx c8Q c8V c8P 0 =
      some ("\"todos\":[null,null]", false, (⟨[], c8Sch, [], [], [c8Msg, c8Msg], []⟩ : Ctx)) ∧
    resolveSelectionContentLoop 11 c8Ctx [.field c8Q] c8V c8P 0 "" false =
      resolveSelectionContentLoop 10 (⟨[], c8Sch, [], [], [c8Msg, c8Msg], []⟩ : Ctx) []
        c8V c8P 0 "\"todos\":[null,null]" true := by
  refine ⟨?_, ?_, ?_, ?_, ?_⟩
  · exact claim_C8_array_resolution.1 8 c8Ctx c8Q [.vInvalid, .vInvalid] c8T defaultObj 0
      (by rfl) (by rfl)
  · exact claim_C8_array_resolution.2.1 7 c8Ctx c8Q .vInvalid [.vInvalid] defaultObj 0
      "null" true (c8Ctx.addErr c8Msg)
      (by simp [resolveFieldDataValue, c8Q, c8Ctx, c8Msg, defaultObj, Field.name,
        Obj.valueType, Ctx.addErr])
  · simp [resolveFieldDataValue, resolveList, c8Ctx, c8Q, c8T, c8Sch, c8Msg, Obj.valueType,
      Obj.innerContent, defaultObj, Field.name, Field.selection, Ctx.addErr]
    rfl
  · simp [resolveField, resolveFieldDataValue, resolveList, c8Ctx, c8Q, c8T, c8P, c8V, c8Sch,
      c8Msg, Obj.valueType, Obj.innerContent, Obj.objContents, Obj.typeName,
      Obj.customObjValue, Obj.method, Obj.structFieldName, defaultObj, Field.name,
      Field.alias_, Field.selection, GoValue.fieldByName, MethodMeta.isTypeMethod,
      defaultMethodMeta, List.lookup, Ctx.addErr]
    rfl
  · have h := claim_C8_array_resolution.2.2 10 c8Ctx c8Q [] c8V c8P 0 "" false
      "\"todos\":[null,null]" (⟨[], c8Sch, [], [], [c8Msg, c8Msg], []⟩ : Ctx)
      (by
        simp [resolveField, resolveFieldDataValue, resolveList, c8Ctx, c8Q, c8T, c8P, c8V,
          c8Sch, c8Msg, Obj.valueType, Obj.innerContent, Obj.objContents, Obj.typeName,
          Obj.customObjValue, Obj.method, Obj.structFieldName, defaultObj, Field.name,
          Field.alias_, Field.selection, GoValue.fieldByName, MethodMeta.isTypeMethod,
          defaultMethodMeta, List.lookup, Ctx.addErr]
        rfl)
    simpa using h

/-- C9: a query argument whose name is not among the method's declared
input fields records `undefined function F input: K` and the argument
loop continues with the remaining arguments; when the loop completes the
method is still invoked (the call is recorded and its value output
serialised), and the unknown argument alone never sets the errored flag. -/
theorem claim_C9_unknown_argument :
    (∀ fuel c fname k qv rest (m : MethodMeta) inputs,
      List.lookup k m.inFields = none →
      resolveMethodArgs (fuel + 1) c fname ((k, qv) :: rest) m inputs =
        resolveMethodArgs fuel
          (c.addErr ("undefined function " ++ fname ++ " input: " ++ k))
          fname rest m inputs) ∧
    (∀ fuel c (q : Field) (t : Obj) dept outs (m : MethodMeta) c1 finalInputs,
      t.valueType = VT.method → t.method = some m → m.errorOutNr = none →
      resolveMethodArgs fuel c q.name q.arguments m
          (m.ins.map (fun inn => if inn.isCtx then GoValue.vCtx else inn.zero)) =
        some (c1, some finalInputs) →
      resolveFieldDataValue (fuel + 1) c q (.vFunc (some outs)) t dept =
        resolveFieldDataValue fuel { c1 with calls := c1.calls ++ [finalInputs] } q
          (outs.getD m.outNr GoValue.vInvalid) m.outType dept) := by
  constructor
  · intro fuel c fname k qv rest m inputs hl
    simp [resolveMethodArgs, hl]
  · intro fuel c q t dept outs m c1 finalInputs ht hm he ha
    simp only [resolveFieldDataValue, ht, hm, Option.getD_some, ha, he]

def c9M : MethodMeta := .mk true [] [] none 0 dataObjW

def c9T : Obj := .mk "Root" .method [] none (some c9M) "" "Hello" none

def c9Q : Field := .mk "hello" "" [("bogus", .vInt 1)] [] []

def c9Sch : Schema := ⟨defaultObj, defaultObj, .vStruct [] [], [], [], 5, []⟩

def c9Ctx : Ctx := ⟨[], c9Sch, [], [], [], []⟩

def c9Outs : List GoValue := [.vScalar (.sString "hi")]

/-- C9, witness: `hello(bogus: 1)` against a no-parameter method — the
unknown-argument error is recorded, the loop continues to completion, the
method is invoked (one call recorded) and its string output `"hi"` is
serialised with the errored flag unset. -/
theorem claim_C9_unknown_argument_witness :
    resolveMethodArgs 2 c9Ctx "hello" [("bogus", .vInt 1)] c9M [] =
      resolveMethodArgs 1 (c9Ctx.addErr "undefined function hello input: bogus")
        "hello" [] c9M [] ∧
    resolveFieldDataValue 3 c9Ctx c9Q (.vFunc (some c9Outs)) c9T 0 =
      resolveFieldDataValue 2
        (⟨[], c9Sch, [], [], ["undefined function hello input: bogus"], [[]]⟩ : Ctx)
        c9Q (.vScalar (.sString "hi")) dataObjW 0 ∧
    resolveFieldDataValue 3 c9Ctx c9Q (.vFunc (some c9Outs)) c9T 0 =
      some ("\"hi\"", false,
        (⟨[], c9Sch, [], [], ["undefined function hello input: bogus"], [[]]⟩ : Ctx)) := by
  refine ⟨?_, ?_, ?_⟩
  · exact claim_C9_unknown_argument.1 1 c9Ctx "hello" "bogus" (.vInt 1) [] c9M [] (by rfl)
  · exact claim_C9_unknown_argument.2 2 c9Ctx c9Q c9T 0 c9Outs c9M
      (⟨[], c9Sch, [], [], ["undefined function hello input: bogus"], []⟩ : Ctx) []
      (by rfl) (by rfl) (by rfl)
      (by simp [resolveMethodArgs, c9M, c9Q, c9Ctx, c9Sch, Field.name, Field.arguments,
        MethodMeta.ins, MethodMeta.inFields, Ctx.addErr, List.lookup])
  · simp [resolveFieldDataValue, resolveMethodArgs, c9M, c9T, c9Q, c9Ctx, c9Outs, dataObjW,
      Field.name, Field.arguments, Field.selection, MethodMeta.ins, MethodMeta.inFields,
      MethodMeta.errorOutNr, MethodMeta.outNr, MethodMeta.outType, Obj.valueType, Obj.method,
      Ctx.addErr, List.lookup, valueToJson]
    rfl

/-- C10: a method-backed field whose reflected function value is nil
resolves to `null` with the errored flag unset and an unchanged context
(no error recorded, no call performed); a field resolution with the flag
unset has its key appended to the enclosing object body, so the key
appears with the value `null`. -/
theorem claim_C10_nil_method :
    (∀ fuel c (q : Field) (t : Obj) dept, t.valueType = VT.method →
      resolveFieldDataValue (fuel + 1) c q (.vFunc none) t dept =
        some ("null", false, c)) ∧
    (∀ fuel c (f : Field) rest v t dept res w val c1,
      resolveField fuel c f v t dept = some (val, false, c1) →
      resolveSelectionContentLoop (fuel + 1) c (.field f :: rest) v t dept res w =
        resolveSelectionContentLoop fuel c1 rest v t dept
          ((if w then res ++ "," else res) ++ val) true) := by
  constructor
  · intro fuel c q t dept ht
    simp [resolveFieldDataValue, ht]
  · intro fuel c f rest v t dept res w val c1 h
    simp only [resolveSelectionContentLoop, h]
    simp

def c10T : Obj :=
  .mk "QueryRoot" .method [] none (some (.mk true [] [] none 0 defaultObj)) "" "M" none

def c10P : Obj := .mk "QueryRoot" .obj [("m", c10T)] none none "" "" none

def c10Q : Field := .mk "m" "" [] [] []

def c10Ctx : Ctx :=
  ⟨[], ⟨c10P, c10P, .vStruct [] [("M", .vFunc none)], [], [], 5, []⟩, [], [], [], []⟩

/-- C10, witness: the type method `M` behind the field `m` is a nil func;
the field resolves to `"m":null` with the errored flag unset and the key
is appended to the object body. -/
theorem claim_C10_nil_method_witness :
    resolveFieldDataValue 1 c10Ctx c10Q (.vFunc none) c10T 0 =
      some ("null", false, c10Ctx) ∧
    resolveField 2 c10Ctx c10Q (.vStruct [] [("M", .vFunc none)]) c10P 0 =
      some ("\"m\":null", false, c10Ctx) ∧
    resolveSelectionContentLoop 3 c10Ctx [.field c10Q]
        (.vStruct [] [("M", .vFunc none)]) c10P 0 "" false =
      resolveSelectionContentLoop 2 c10Ctx [] (.vStruct [] [("M", .vFunc none)]) c10P 0
        "\"m\":null" true := by
  refine ⟨claim_C10_nil_method.1 0 c10Ctx c10Q c10T 0 (by rfl), ?_, ?_⟩
  · simp [resolveField, resolveFieldDataValue, c10Q, c10T, c10P, Field.name, Field.alias_,
      Obj.objContents, Obj.valueType, Obj.customObjValue, Obj.method, Obj.structFieldName,
      MethodMeta.isTypeMethod, GoValue.methodByName, List.lookup, defaultMethodMeta]
  · have h := claim_C10_nil_method.2 2 c10Ctx c10Q [] (.vStruct [] [("M", .vFunc none)])
      c10P 0 "" false "\"m\":null" c10Ctx (by
        simp [resolveField, resolveFieldDataValue, c10Q, c10T, c10P, Field.name, Field.alias_,
          Obj.objContents, Obj.valueType, Obj.customObjValue, Obj.method, Obj.structFieldName,
          MethodMeta.isTypeMethod, GoValue.methodByName, List.lookup, defaultMethodMeta])
    simpa using h

end GoGraphql
